import Mathlib

/-!
Verification of the declarative styling-expression generator of the
population-viewer repository: the legend flattening step
(`Legend.GetListOfStyles`, `Legend.GetStylingFromLegendItem`) and the
expression compilers (`generateColourExpression`,
`generateOpacityExpression`, `generateLegendOpacityValues`,
`generateSymbolOpacityExpression`).

Modelling conventions for the JavaScript source:
* JS values flowing through the compiled expressions are modelled by `JVal`
  (numbers as `ℚ`, strings, arrays, and `undefined`).  JS truthiness is
  `JVal.truthy` (`0`, the empty string and `undefined` are falsy; every
  array is truthy).
* Optional object fields are `Option` (absent field = `none`).
* Colour channel values are modelled as integers (`Int`); legend colours in
  the configuration files are integer channel lists, and JS renders integer
  numbers exactly as their decimal notation, which `toString : Int → String`
  reproduces.  Opacities are modelled as `ℚ`.
* `chkBoxesState` entries are created by the legend control as
  `{item, checkbox}` objects, with the checkbox carrying a boolean
  `checked`; an entry is modelled as `ChkEntry` (item plus checked flag).
* The in-place clamping assignment `chkBox.item.opacity = 1` performed by
  `generateLegendOpacityValues` is modelled by explicit state passing:
  `generateLegendOpacityValuesFull` returns both the opacity list and the
  post-call contents of the `chkBoxesState` array.
-/

/-- A JavaScript value as it appears in legend configurations and in the
generated mapbox style expressions: a number, a string, an array, or
`undefined`. -/
inductive JVal : Type where
  | num (q : ℚ)
  | str (s : String)
  | arr (elems : List JVal)
  | undef
deriving Repr, Inhabited

mutual
/-- Decidable equality of `JVal` (the automatic derivation does not handle
this nested inductive). -/
def JVal.decEq : (a b : JVal) → Decidable (a = b)
  | .num a, .num b =>
      if h : a = b then isTrue (by rw [h])
      else isFalse (by intro hh; cases hh; exact h rfl)
  | .str a, .str b =>
      if h : a = b then isTrue (by rw [h])
      else isFalse (by intro hh; cases hh; exact h rfl)
  | .arr a, .arr b =>
      match JVal.decEqList a b with
      | isTrue h => isTrue (by rw [h])
      | isFalse h => isFalse (by intro hh; cases hh; exact h rfl)
  | .undef, .undef => isTrue rfl
  | .num _, .str _ => isFalse (fun h => JVal.noConfusion h)
  | .num _, .arr _ => isFalse (fun h => JVal.noConfusion h)
  | .num _, .undef => isFalse (fun h => JVal.noConfusion h)
  | .str _, .num _ => isFalse (fun h => JVal.noConfusion h)
  | .str _, .arr _ => isFalse (fun h => JVal.noConfusion h)
  | .str _, .undef => isFalse (fun h => JVal.noConfusion h)
  | .arr _, .num _ => isFalse (fun h => JVal.noConfusion h)
  | .arr _, .str _ => isFalse (fun h => JVal.noConfusion h)
  | .arr _, .undef => isFalse (fun h => JVal.noConfusion h)
  | .undef, .num _ => isFalse (fun h => JVal.noConfusion h)
  | .undef, .str _ => isFalse (fun h => JVal.noConfusion h)
  | .undef, .arr _ => isFalse (fun h => JVal.noConfusion h)

/-- Decidable equality of lists of `JVal`. -/
def JVal.decEqList : (a b : List JVal) → Decidable (a = b)
  | [], [] => isTrue rfl
  | [], _ :: _ => isFalse (fun h => List.noConfusion h)
  | _ :: _, [] => isFalse (fun h => List.noConfusion h)
  | a :: as, b :: bs =>
      match JVal.decEq a b with
      | isFalse h => isFalse (by intro hh; cases hh; exact h rfl)
      | isTrue h =>
          match JVal.decEqList as bs with
          | isTrue h2 => isTrue (by rw [h, h2])
          | isFalse h2 => isFalse (by intro hh; cases hh; exact h2 rfl)
end

instance : DecidableEq JVal := JVal.decEq

/-- JS truthiness of a `JVal`: `0`, `""` and `undefined` are falsy, every
array (even the empty one) is truthy. -/
def JVal.truthy : JVal → Bool
  | .num q => q ≠ 0
  | .str s => s ≠ ""
  | .arr _ => true
  | .undef => false

/-- Truthiness of an optional JS value (an absent field is `undefined`,
hence falsy). -/
def optTruthy : Option JVal → Bool
  | some v => v.truthy
  | none => false

/-- Truthiness of an optional JS string (absent or empty means falsy). -/
def strOptTruthy : Option String → Bool
  | some s => s ≠ ""
  | none => false

mutual
/-- A legend configuration entry (`LegendRule` / `LegendGroup` of the data
model): optional `label`, `title`, `color` (channel list), `value`
(a mapbox predicate expression), fixed `opacity`, the `binary_opacity`
flag used by the part_003 revision, and an optional nested `group`. -/
inductive LegendItem : Type where
  | mk (label : Option String) (title : Option String)
      (color : Option (List Int)) (value : Option JVal)
      (opacity : Option ℚ) (binaryOpacity : Bool)
      (group : Option LegendGroup)

/-- The `group` field of a legend entry: a `heading` and a nested ordered
list of legend items. -/
inductive LegendGroup : Type where
  | mk (heading : Option String) (items : Option (List LegendItem))
end

def LegendItem.label : LegendItem → Option String
  | .mk l _ _ _ _ _ _ => l

def LegendItem.title : LegendItem → Option String
  | .mk _ t _ _ _ _ _ => t

def LegendItem.color : LegendItem → Option (List Int)
  | .mk _ _ c _ _ _ _ => c

def LegendItem.value : LegendItem → Option JVal
  | .mk _ _ _ v _ _ _ => v

def LegendItem.opacity : LegendItem → Option ℚ
  | .mk _ _ _ _ o _ _ => o

def LegendItem.binaryOpacity : LegendItem → Bool
  | .mk _ _ _ _ _ b _ => b

def LegendItem.group : LegendItem → Option LegendGroup
  | .mk _ _ _ _ _ _ g => g

/-- Replace the `opacity` field of a legend item (used to model the
in-place clamping assignment `chkBox.item.opacity = ...`). -/
def LegendItem.setOpacity : LegendItem → Option ℚ → LegendItem
  | .mk l t c v _ b g, o => .mk l t c v o b g

def LegendGroup.heading : LegendGroup → Option String
  | .mk h _ => h

def LegendGroup.items : LegendGroup → Option (List LegendItem)
  | .mk _ i => i

/-- An entry of a legend control's `chkBoxesState` array: the legend item
paired with its checkbox's `checked` flag. -/
structure ChkEntry : Type where
  item : LegendItem
  checked : Bool

/-- The legend object consumed by the expression generators: its `config`
(the legend configuration array, absent when not loaded) and its
`chkBoxesState` array (absent before the control renders). -/
structure Legend : Type where
  config : Option (List LegendItem)
  chkBoxesState : Option (List ChkEntry)

/-- A flattened style rule as produced by `GetStylingFromLegendItem`:
an object holding at most a `color` and a `value`. -/
structure Style : Type where
  color : Option (List Int)
  value : Option JVal
deriving Repr

namespace Legend

/-- `Legend.GetStylingFromLegendItem` (src/unnamed/part_005, lines
1813–1825): copies `color`, and `value` only when both `color` and `value`
are truthy. -/
def GetStylingFromLegendItem (legendItem : LegendItem) : Style :=
  match legendItem.color with
  | some c =>
      { color := some c
        value := if optTruthy legendItem.value then legendItem.value else none }
  | none => { color := none, value := none }

/-- `Legend.GetListOfStyles` (src/unnamed/part_005, lines 1834–1855):
flattens the legend configuration one group level deep, collecting the
styling of each item (group members in place of their group). -/
def GetListOfStyles (legendConfig : List LegendItem) : List Style :=
  legendConfig.flatMap fun legendItem =>
    match legendItem.group with
    | some g =>
        match g.items with
        | some groupItems => groupItems.map GetStylingFromLegendItem
        | none => [GetStylingFromLegendItem legendItem]
    | none => [GetStylingFromLegendItem legendItem]

end Legend

/-- `colourListToRGBString` (src/unnamed/part_005, lines 3013–3026):
renders a channel list of length 3 as `rgb(...)`, of length 4 as
`rgba(...)`, and yields `undefined` (`none`) otherwise. -/
def colourListToRGBString (colourList : List Int) : Option String :=
  if colourList.length ≥ 3 then
    if colourList.length = 3 then
      some ("rgb(" ++ String.intercalate "," (colourList.map toString) ++ ")")
    else if colourList.length = 4 then
      some ("rgba(" ++ String.intercalate "," (colourList.map toString) ++ ")")
    else none
  else none

/-- The loop body of `generateColourExpression` (src/unnamed/part_005,
lines 3087–3111), with the loop-carried variables made explicit:
`styleColor` (only overwritten when the current style has a `color`) and
`defaultColour` (overwritten by every style that does not emit a case
pair).  Returns the accumulated case-pair elements and the final
`defaultColour`. -/
def colourCases : List Style → Option String → Option String →
    (List JVal × Option String)
  | [], _, defaultColour => ([], defaultColour)
  | styleItem :: rest, styleColor, defaultColour =>
      let styleColor' :=
        match styleItem.color with
        | some c => colourListToRGBString c
        | none => styleColor
      match styleItem.value, styleColor' with
      | some v, some c =>
          if v.truthy && (c ≠ "" : Bool) then
            let r := colourCases rest styleColor' defaultColour
            (v :: JVal.str c :: r.1, r.2)
          else colourCases rest styleColor' styleColor'
      | some _, none => colourCases rest styleColor' styleColor'
      | none, _ => colourCases rest styleColor' styleColor'

/-- `generateColourExpression` (src/unnamed/part_005, lines 3078–3127):
flattens the legend configuration and compiles it into either a
`["case", ...]` expression (two or more styles), a scalar colour string
(exactly one style with a colour), or `undefined`. -/
def generateColourExpression (legend : Legend) : JVal :=
  match legend.config with
  | none => JVal.undef
  | some config =>
      let legendStyles := Legend.GetListOfStyles config
      if legendStyles.length > 1 then
        let r := colourCases legendStyles none none
        JVal.arr (JVal.str "case" :: r.1 ++
          [match r.2 with
           | some c => JVal.str c
           | none => JVal.undef])
      else
        match legendStyles with
        | [s] =>
            match s.color with
            | some c =>
                match colourListToRGBString c with
                | some rgb => JVal.str rgb
                | none => JVal.undef
            | none => JVal.undef
        | _ => JVal.undef

/-- One iteration of the `generateLegendOpacityValues` loop
(src/unnamed/part_005, lines 3044–3057) on a single `chkBoxesState` entry:
returns the opacity pushed for this entry together with the entry as it
stands after the iteration (the clamping branch assigns the clamped value
back into `chkBox.item.opacity`).  A declared opacity of `0` is falsy in
JS, so the fixed-opacity branch is only taken for a nonzero number. -/
def resolveEntry (chkBox : ChkEntry) (storedOpacity : ℚ) : ℚ × ChkEntry :=
  if chkBox.checked = false then (0, chkBox)
  else
    match chkBox.item.opacity with
    | some q =>
        if q ≠ 0 then
          if q > 1 then (1, { chkBox with item := chkBox.item.setOpacity (some 1) })
          else if q < 0 then (0, { chkBox with item := chkBox.item.setOpacity (some 0) })
          else (q, chkBox)
        else (storedOpacity, chkBox)
    | none => (storedOpacity, chkBox)

/-- `generateLegendOpacityValues` (src/unnamed/part_005, lines 3036–3062)
with its in-place clamping made explicit: returns the list of per-entry
opacities and the contents of the `chkBoxesState` array after the call. -/
def generateLegendOpacityValuesFull (legend : Legend) (storedOpacity : ℚ) :
    List ℚ × List ChkEntry :=
  match legend.chkBoxesState with
  | none => ([], [])
  | some entries =>
      let rs := entries.map fun e => resolveEntry e storedOpacity
      (rs.map Prod.fst, rs.map Prod.snd)

/-- The value returned by `generateLegendOpacityValues`
(src/unnamed/part_005, lines 3036–3062): the list of per-entry opacities
(`0` when unchecked, the clamped fixed opacity when a nonzero numeric
`opacity` is declared, the stored global opacity otherwise). -/
def generateLegendOpacityValues (legend : Legend) (storedOpacity : ℚ) : List ℚ :=
  (generateLegendOpacityValuesFull legend storedOpacity).1

/-- The part_003 revision of `generateLegendOpacityValues`
(src/unnamed/part_003, lines 1997–2016): `0` when the entry's checkbox is
unchecked, `1` when the item carries a truthy `binary_opacity` flag, the
stored global opacity otherwise. -/
def generateLegendOpacityValues03 (legend : Legend) (storedOpacity : ℚ) : List ℚ :=
  match legend.chkBoxesState with
  | none => []
  | some entries =>
      entries.map fun chkBox =>
        if chkBox.checked = false then 0
        else if chkBox.item.binaryOpacity then 1
        else storedOpacity

/-- The loop body of `generateOpacityExpression` (src/unnamed/part_005,
lines 3156–3175): walks the flattened styles in step with the opacity list
(`legendOpacities[i]` is `undefined`, hence outside `[0,1]`, when the lists
have different lengths), accumulating case pairs and the running
`defaultOpacity`. -/
def opacityCases : List Style → List ℚ → ℚ → Option ℚ →
    (List JVal × Option ℚ)
  | [], _, _, defaultOpacity => ([], defaultOpacity)
  | styleItem :: rest, legendOpacities, opacity, defaultOpacity =>
      match styleItem.value, legendOpacities.head? with
      | some v, some q =>
          if v.truthy && (decide (0 ≤ q) && decide (q ≤ 1)) then
            let r := opacityCases rest legendOpacities.tail opacity defaultOpacity
            (v :: JVal.num q :: r.1, r.2)
          else
            opacityCases rest legendOpacities.tail opacity
              (some (if 0 ≤ q ∧ q ≤ 1 then q else opacity))
      | some _, none =>
          opacityCases rest legendOpacities.tail opacity (some opacity)
      | none, some q =>
          opacityCases rest legendOpacities.tail opacity
            (some (if 0 ≤ q ∧ q ≤ 1 then q else opacity))
      | none, none =>
          opacityCases rest legendOpacities.tail opacity (some opacity)

/-- `generateOpacityExpression` (src/unnamed/part_005, lines 3144–3191):
compiles the flattened styles and the per-entry opacity values into either
a `["case", ...]` expression (both lists longer than one), the single
opacity value (both lists of length one), or `undefined`. -/
def generateOpacityExpression (legend : Legend) (opacity : ℚ) : JVal :=
  let legendOpacities := generateLegendOpacityValues legend opacity
  match legend.config with
  | none => JVal.undef
  | some config =>
      let legendStyles := Legend.GetListOfStyles config
      if legendStyles.length > 1 ∧ legendOpacities.length > 1 then
        let r := opacityCases legendStyles legendOpacities opacity none
        JVal.arr (JVal.str "case" :: r.1 ++
          [match r.2 with
           | some q => JVal.num q
           | none => JVal.undef])
      else if legendStyles.length = 1 ∧ legendOpacities.length = 1 then
        match legendOpacities.head? with
        | some q => JVal.num q
        | none => JVal.undef
      else JVal.undef

/-- `generateSymbolOpacityExpression` (src/unnamed/part_005, lines
3197–3226): binarizes an opacity expression for symbol layers.  A truthy
input with `.length > 1` (an array, or a string of several characters,
whose elements are its one-character substrings) is walked element by
element, numbers becoming `1` when positive and `0` otherwise and all
other elements passed through; a scalar number becomes `1` when positive
and `0` otherwise; anything else yields `undefined`. -/
def generateSymbolOpacityExpression : JVal → JVal
  | .arr elems =>
      if elems.length > 1 then
        JVal.arr (elems.map fun e =>
          match e with
          | .num q => if q > 0 then JVal.num 1 else JVal.num 0
          | other => other)
      else JVal.undef
  | .num q => if q > 0 then JVal.num 1 else JVal.num 0
  | .str s =>
      if s ≠ "" ∧ s.length > 1 then
        JVal.arr (s.data.map fun c => JVal.str (String.mk [c]))
      else JVal.undef
  | .undef => JVal.undef

/-! ## Derived notions used to state the properties -/

/-- The colour string a style resolves to from its own `color` field. -/
def rgbOfStyle (s : Style) : Option String :=
  s.color.bind colourListToRGBString

/-- The case-pair elements a single flattened style contributes to the
compiled colour expression: its truthy `value` followed by its own colour
string, when both resolve; nothing otherwise. -/
def stylePair (s : Style) : List JVal :=
  match s.value, rgbOfStyle s with
  | some v, some c => if v.truthy then [v, JVal.str c] else []
  | _, _ => []

/-- Whether a style contributes a value-bearing case pair. -/
def stylePairP (s : Style) : Bool :=
  optTruthy s.value && (rgbOfStyle s).isSome

/-- The number of styles contributing a value-bearing case pair. -/
def pairCount (styles : List Style) : Nat :=
  styles.countP stylePairP

/-- Whether a style lacks a (truthy) `value`, i.e. is default-like. -/
def valueless (s : Style) : Bool :=
  !optTruthy s.value

/-- The final default element of the compiled colour expression, as the
loop computes it. -/
def colourDefaultJVal (styles : List Style) : JVal :=
  match (colourCases styles none none).2 with
  | some c => JVal.str c
  | none => JVal.undef

/-- The colour of the last value-less style of a flattened legend,
resolved from that style's own `color` field (`undefined` when there is no
value-less style or its colour does not resolve). -/
def lastValuelessColour (styles : List Style) : JVal :=
  match ((styles.filter valueless).getLast?.bind rgbOfStyle) with
  | some c => JVal.str c
  | none => JVal.undef

/-- The invariant `GetStylingFromLegendItem` establishes: a flattened
style carries a `value` only when it also carries a `color`. -/
def styleInv (s : Style) : Prop :=
  optTruthy s.value = true → s.color.isSome

/-- The coarse shape of a compiled expression: a scalar (number or
string), a case list, or `undefined`. -/
inductive JShape : Type where
  | scalar
  | caselist
  | undefshape
deriving Repr, DecidableEq

/-- Shape of a `JVal`. -/
def JVal.shape : JVal → JShape
  | .num _ => .scalar
  | .str _ => .scalar
  | .arr _ => .caselist
  | .undef => .undefshape

/-- Clamping of a declared opacity to `[0,1]` as the source performs it. -/
def clampOpacity (q : ℚ) : ℚ :=
  if q > 1 then 1 else if q < 0 then 0 else q

/-- Binarization of one element of an opacity expression for symbol
layers: positive numbers become `1`, other numbers `0`, everything else is
unchanged. -/
def binarizeElem : JVal → JVal
  | .num q => if q > 0 then JVal.num 1 else JVal.num 0
  | v => v

/-- A `case`-shaped expression list: headed by the `"case"` marker and
holding at least one further element. -/
def isCaseShaped (l : List JVal) : Prop :=
  l.head? = some (JVal.str "case") ∧ 2 ≤ l.length

/-- A `chkBoxesState` entry with its item's `opacity` field erased (used
to state which parts of the state the opacity resolver leaves intact). -/
def eraseOp (e : ChkEntry) : ChkEntry :=
  { item := e.item.setOpacity none, checked := e.checked }

/-! ## Concrete legends used in the scenario and the counterexamples -/

/-- The predicate `["==", ["get","type"], "A"]`. -/
def vA : JVal :=
  JVal.arr [JVal.str "==", JVal.arr [JVal.str "get", JVal.str "type"], JVal.str "A"]

/-- The predicate `["==", ["get","type"], "B"]`. -/
def vB : JVal :=
  JVal.arr [JVal.str "==", JVal.arr [JVal.str "get", JVal.str "type"], JVal.str "B"]

/-- `{color:[255,0,0], value:["==",["get","type"],"A"]}`. -/
def ruleA : LegendItem :=
  .mk (some "A") none (some [255, 0, 0]) (some vA) none false none

/-- `{color:[0,0,255], value:["==",["get","type"],"B"]}`. -/
def ruleB : LegendItem :=
  .mk (some "B") none (some [0, 0, 255]) (some vB) none false none

/-- `{color:[128,128,128]}` — the default rule of the scenario. -/
def ruleDefault : LegendItem :=
  .mk (some "default") none (some [128, 128, 128]) none none false none

/-- The three-rule scenario legend with one checked checkbox-state entry
per rule. -/
def scenarioLegend : Legend :=
  { config := some [ruleA, ruleB, ruleDefault]
    chkBoxesState := some [⟨ruleA, true⟩, ⟨ruleB, true⟩, ⟨ruleDefault, true⟩] }

/-- C1: for the three-rule scenario legend with all checkboxes checked and
global opacity `0.5` (the rational `mkRat 1 2`), `generateColourExpression`
returns exactly
`["case", vA, "rgb(255,0,0)", vB, "rgb(0,0,255)", "rgb(128,128,128)"]` and
`generateOpacityExpression` returns exactly
`["case", vA, 0.5, vB, 0.5, 0.5]`. -/
theorem scenario_compiles_exactly :
    generateColourExpression scenarioLegend =
      JVal.arr [JVal.str "case", vA, JVal.str "rgb(255,0,0)",
        vB, JVal.str "rgb(0,0,255)", JVal.str "rgb(128,128,128)"] ∧
    generateOpacityExpression scenarioLegend (mkRat 1 2) =
      JVal.arr [JVal.str "case", vA, JVal.num (mkRat 1 2),
        vB, JVal.num (mkRat 1 2), JVal.num (mkRat 1 2)] := by
  constructor
  · rfl
  · decide

/-! ## Lemmas about the colour compiler loop -/

/-- Colour strings produced by `colourListToRGBString` are nonempty (they
begin with `rgb(` or `rgba(`). -/
theorem colourListToRGBString_ne_empty (c : List Int) (s : String)
    (h : colourListToRGBString c = some s) : s ≠ "" := by
  intro he
  subst he
  unfold colourListToRGBString at h
  have h4 : ("rgb(" : String).length = 4 := rfl
  have h5 : ("rgba(" : String).length = 5 := rfl
  have h1 : ((")") : String).length = 1 := rfl
  split_ifs at h <;> simp only [Option.some.injEq] at h <;>
    [skip; skip] <;>
    · have := congrArg String.length h
      rw [String.length_append, String.length_append] at this
      simp only [String.length_empty] at this
      omega

/-- A style flattened by `GetStylingFromLegendItem` carries a truthy
`value` only when it also carries a `color`. -/
theorem getStyling_styleInv (it : LegendItem) :
    styleInv (Legend.GetStylingFromLegendItem it) := by
  unfold Legend.GetStylingFromLegendItem styleInv
  rcases hc : it.color with _ | c
  · intro hv
    simp [optTruthy] at hv
  · intro _
    simp

/-- Every style in a flattened legend satisfies the value-implies-colour
invariant. -/
theorem getListOfStyles_styleInv (cfg : List LegendItem) :
    ∀ s ∈ Legend.GetListOfStyles cfg, styleInv s := by
  intro s hs
  unfold Legend.GetListOfStyles at hs
  rw [List.mem_flatMap] at hs
  obtain ⟨it, _, hmem⟩ := hs
  rcases hg : it.group with _ | g
  · simp only [hg, List.mem_singleton] at hmem
    exact hmem ▸ getStyling_styleInv it
  · rcases hi : g.items with _ | its
    · simp only [hg, hi, List.mem_singleton] at hmem
      exact hmem ▸ getStyling_styleInv it
    · simp only [hg, hi, List.mem_map] at hmem
      obtain ⟨gi, _, hgi⟩ := hmem
      exact hgi ▸ getStyling_styleInv gi

/-- Under the value-implies-colour invariant, the case pairs accumulated
by the colour loop are exactly the pairs each style contributes from its
own colour, in order. -/
theorem colourCases_fst (styles : List Style)
    (hinv : ∀ s ∈ styles, styleInv s) :
    ∀ sc d, (colourCases styles sc d).1 = styles.flatMap stylePair := by
  induction styles with
  | nil => intro sc d; rfl
  | cons s rest ih =>
    have hs : styleInv s := hinv s (List.mem_cons_self s rest)
    have hrest : ∀ t ∈ rest, styleInv t := fun t ht => hinv t (List.mem_cons_of_mem s ht)
    intro sc d
    rw [List.flatMap_cons]
    rcases hcol : s.color with _ | c
    · rcases hval : s.value with _ | v
      · simp only [colourCases, hcol, hval]
        simp [stylePair, hval, rgbOfStyle, hcol, ih hrest]
      · have hvf : v.truthy = false := by
          by_contra hvt
          rw [Bool.not_eq_false] at hvt
          have := hs (by simp [optTruthy, hval, hvt])
          rw [hcol] at this
          simp at this
        rcases hsc : sc with _ | c0
        · simp only [colourCases, hcol, hval]
          simp [stylePair, hval, rgbOfStyle, hcol, ih hrest]
        · simp only [colourCases, hcol, hval, hvf]
          simp [stylePair, hval, rgbOfStyle, hcol, ih hrest]
    · rcases hval : s.value with _ | v
      · simp only [colourCases, hcol, hval]
        rcases hr : colourListToRGBString c with _ | str
        · simp [hr, stylePair, hval, ih hrest]
        · simp [hr, stylePair, hval, ih hrest]
      · rcases hr : colourListToRGBString c with _ | str
        · simp only [colourCases, hcol, hval, hr]
          simp [stylePair, hval, rgbOfStyle, hcol, hr, ih hrest]
        · have hne : (str ≠ "") := colourListToRGBString_ne_empty c str hr
          rcases hvt : v.truthy with _ | _
          · simp [colourCases, hcol, hval, hr, hvt, stylePair, rgbOfStyle, ih hrest]
          · simp [colourCases, hcol, hval, hr, hvt, hne, stylePair, rgbOfStyle, ih hrest]

/-- A style contributes two case elements when `stylePairP` holds and none
otherwise. -/
theorem stylePair_length (s : Style) :
    (stylePair s).length = if stylePairP s then 2 else 0 := by
  unfold stylePair stylePairP optTruthy
  rcases hval : s.value with _ | v
  · simp
  · rcases hr : rgbOfStyle s with _ | c
    · simp
    · rcases hvt : v.truthy with _ | _ <;> simp [hvt]

/-- The accumulated case pairs have length `2 * k` where `k` counts the
pair-contributing styles. -/
theorem flatMap_stylePair_length (styles : List Style) :
    (styles.flatMap stylePair).length = 2 * pairCount styles := by
  induction styles with
  | nil => rfl
  | cons s rest ih =>
    rw [List.flatMap_cons, List.length_append, ih]
    unfold pairCount
    rw [List.countP_cons, stylePair_length]
    rcases h : stylePairP s with _ | _
    · simp [h, pairCount]
    · simp [h, pairCount]
      omega

/-- When every style's own colour resolves, the final default colour of
the loop is the colour of the last value-less style (or the incoming
default when no style is value-less). -/
theorem colourCases_snd (styles : List Style)
    (hres : ∀ s ∈ styles, (rgbOfStyle s).isSome) :
    ∀ sc d, (colourCases styles sc d).2 =
      (match (styles.filter valueless).getLast? with
       | some t => rgbOfStyle t
       | none => d) := by
  induction styles with
  | nil => intro sc d; rfl
  | cons s rest ih =>
    have hs : (rgbOfStyle s).isSome := hres s (List.mem_cons_self s rest)
    have hrest : ∀ t ∈ rest, (rgbOfStyle t).isSome :=
      fun t ht => hres t (List.mem_cons_of_mem s ht)
    intro sc d
    obtain ⟨str, hstr⟩ := Option.isSome_iff_exists.mp hs
    have hcol : ∃ c, s.color = some c ∧ colourListToRGBString c = some str := by
      unfold rgbOfStyle at hstr
      rcases hc : s.color with _ | c
      · rw [hc] at hstr; simp at hstr
      · rw [hc] at hstr; simp at hstr; exact ⟨c, rfl, hstr⟩
    obtain ⟨c, hc, hcs⟩ := hcol
    have hne : (str ≠ "") := colourListToRGBString_ne_empty c str hcs
    rcases hval : s.value with _ | v
    · have hvl : valueless s = true := by simp [valueless, optTruthy, hval]
      rw [List.filter_cons_of_pos hvl, List.getLast?_cons]
      simp only [colourCases, hc, hval, hcs]
      rw [ih hrest]
      rcases hlast : (rest.filter valueless).getLast? with _ | t
      · simp [hlast, hstr, rgbOfStyle, hc, hcs]
      · simp [hlast]
    · rcases hvt : v.truthy with _ | _
      · have hvl : valueless s = true := by simp [valueless, optTruthy, hval, hvt]
        rw [List.filter_cons_of_pos hvl, List.getLast?_cons]
        have hstep : colourCases (s :: rest) sc d = colourCases rest (some str) (some str) := by
          simp [colourCases, hc, hval, hcs, hvt]
        rw [hstep, ih hrest]
        rcases hlast : (rest.filter valueless).getLast? with _ | t
        · simp [hlast, hstr, rgbOfStyle, hc, hcs]
        · simp [hlast]
      · have hvl : valueless s = false := by simp [valueless, optTruthy, hval, hvt]
        rw [List.filter_cons_of_neg (by simp [hvl])]
        simp only [colourCases, hc, hval, hcs, hvt, hne]
        rw [if_pos (by simp [hne])]
        exact ih hrest _ _

/-- Characterization of `generateColourExpression` on a legend whose
flattened style list has at least two entries: a `"case"` head, the
per-style case pairs in order, and exactly one trailing default. -/
theorem generateColourExpression_case (legend : Legend) (cfg : List LegendItem)
    (hc : legend.config = some cfg)
    (hlen : 1 < (Legend.GetListOfStyles cfg).length) :
    generateColourExpression legend =
      JVal.arr (JVal.str "case" :: (Legend.GetListOfStyles cfg).flatMap stylePair ++
        [colourDefaultJVal (Legend.GetListOfStyles cfg)]) := by
  unfold generateColourExpression
  rw [hc]
  simp only [hlen, if_pos]
  rw [colourCases_fst _ (getListOfStyles_styleInv cfg)]
  rfl

/-! ## C2: length and termination of the multi-rule case list -/

/-- A two-rule legend whose second rule is the default (no `value`). -/
def cex2Config : List LegendItem :=
  [ruleA, .mk (some "b") none (some [0, 0, 255]) none none false none]

/-- Legend wrapping `cex2Config`. -/
def cex2Legend : Legend :=
  { config := some cex2Config, chkBoxesState := none }

/-- C2 counterexample: for a two-rule legend contributing one case pair
(`k = 1`), the returned case list has length `4 = 2*k + 2` (the `"case"`
head, one pair, one default), not `2*k + 1 = 3` as claimed. -/
theorem colour_caselist_length_cex :
    generateColourExpression cex2Legend =
      JVal.arr [JVal.str "case", vA, JVal.str "rgb(255,0,0)", JVal.str "rgb(0,0,255)"] ∧
    pairCount (Legend.GetListOfStyles cex2Config) = 1 ∧
    ([JVal.str "case", vA, JVal.str "rgb(255,0,0)", JVal.str "rgb(0,0,255)"].length
      ≠ 2 * pairCount (Legend.GetListOfStyles cex2Config) + 1) := by
  refine ⟨rfl, rfl, ?_⟩
  decide

/-- C2 amended: for a legend whose flattened style list has `N ≥ 2`
entries, `generateColourExpression` returns a list consisting of the
`"case"` head, `2*k` case-pair elements (`k` the number of styles that
contribute a value-bearing pair) and exactly one trailing default
element — total length `2*k + 2`, i.e. `2*k + 1` counting only the
elements after the head. -/
theorem colour_caselist_structure (legend : Legend) (cfg : List LegendItem)
    (hc : legend.config = some cfg)
    (hlen : 1 < (Legend.GetListOfStyles cfg).length) :
    generateColourExpression legend =
      JVal.arr (JVal.str "case" :: (Legend.GetListOfStyles cfg).flatMap stylePair ++
        [colourDefaultJVal (Legend.GetListOfStyles cfg)]) ∧
    (JVal.str "case" :: (Legend.GetListOfStyles cfg).flatMap stylePair ++
        [colourDefaultJVal (Legend.GetListOfStyles cfg)]).length
      = 2 * pairCount (Legend.GetListOfStyles cfg) + 2 := by
  refine ⟨generateColourExpression_case legend cfg hc hlen, ?_⟩
  have h2 := flatMap_stylePair_length (Legend.GetListOfStyles cfg)
  simp only [List.length_cons, List.length_append, List.length_nil, h2]

/-- Witness for the amended C2 at the three-rule scenario legend
(`k = 2`, list length `6 = 2*2 + 2`). -/
theorem colour_caselist_structure_witness :
    generateColourExpression scenarioLegend =
      JVal.arr (JVal.str "case" ::
        (Legend.GetListOfStyles [ruleA, ruleB, ruleDefault]).flatMap stylePair ++
        [colourDefaultJVal (Legend.GetListOfStyles [ruleA, ruleB, ruleDefault])]) ∧
    (JVal.str "case" ::
        (Legend.GetListOfStyles [ruleA, ruleB, ruleDefault]).flatMap stylePair ++
        [colourDefaultJVal (Legend.GetListOfStyles [ruleA, ruleB, ruleDefault])]).length
      = 2 * pairCount (Legend.GetListOfStyles [ruleA, ruleB, ruleDefault]) + 2 :=
  colour_caselist_structure scenarioLegend [ruleA, ruleB, ruleDefault] rfl (by decide)

/-! ## C3: which rule supplies the default colour -/

/-- A two-rule legend in which both rules lack a `value` and the *last*
one also lacks a `color`. -/
def cex3Config : List LegendItem :=
  [.mk (some "a") none (some [255, 0, 0]) none none false none,
   .mk (some "b") none none none none false none]

/-- Legend wrapping `cex3Config`. -/
def cex3Legend : Legend :=
  { config := some cex3Config, chkBoxesState := none }

/-- C3 counterexample: in a legend whose two rules both lack a `value`,
with the last one also lacking a colour, the emitted default is the
*earlier* value-less rule's colour `"rgb(255,0,0)"` (the stale
`styleColor` variable), not the last value-less rule's colour (which does
not exist): the earlier value-less rule does contribute to the output. -/
theorem colour_default_last_valueless_cex :
    generateColourExpression cex3Legend =
      JVal.arr [JVal.str "case", JVal.str "rgb(255,0,0)"] ∧
    ((Legend.GetListOfStyles cex3Config).filter valueless).length = 2 ∧
    lastValuelessColour (Legend.GetListOfStyles cex3Config) = JVal.undef ∧
    ((Legend.GetListOfStyles cex3Config).head?.bind rgbOfStyle) = some "rgb(255,0,0)" := by
  refine ⟨rfl, rfl, rfl, rfl⟩

/-- C3 amended: when at least two flattened rules of a multi-rule legend
lack a `value` and every rule's colour resolves, the final element of the
case expression is the colour of the last value-less rule, and the
value-less rules contribute no case pairs (the pairs come only from the
value-bearing rules, each with its own colour); when a value-less rule
lacks a resolvable colour, a stale earlier colour supplies the default
instead. -/
theorem colour_default_last_valueless (legend : Legend) (cfg : List LegendItem)
    (hc : legend.config = some cfg)
    (hlen : 1 < (Legend.GetListOfStyles cfg).length)
    (hres : ∀ s ∈ Legend.GetListOfStyles cfg, (rgbOfStyle s).isSome)
    (hm : 2 ≤ ((Legend.GetListOfStyles cfg).filter valueless).length) :
    generateColourExpression legend =
      JVal.arr (JVal.str "case" :: (Legend.GetListOfStyles cfg).flatMap stylePair ++
        [lastValuelessColour (Legend.GetListOfStyles cfg)]) := by
  rw [generateColourExpression_case legend cfg hc hlen]
  have hdef : colourDefaultJVal (Legend.GetListOfStyles cfg) =
      lastValuelessColour (Legend.GetListOfStyles cfg) := by
    unfold colourDefaultJVal lastValuelessColour
    rw [colourCases_snd _ hres]
    have hne : (Legend.GetListOfStyles cfg).filter valueless ≠ [] := by
      intro h
      rw [h] at hm
      simp at hm
    rcases hlast : ((Legend.GetListOfStyles cfg).filter valueless).getLast? with _ | t
    · exact absurd (List.getLast?_eq_none_iff.mp hlast) hne
    · have htmem : t ∈ (Legend.GetListOfStyles cfg).filter valueless := by
        obtain ⟨h1, h2⟩ := List.mem_getLast?_eq_getLast (by rw [hlast]; rfl)
        exact h2 ▸ List.getLast_mem h1
      have hts : (rgbOfStyle t).isSome :=
        hres t (List.mem_of_mem_filter htmem)
      obtain ⟨c, hcc⟩ := Option.isSome_iff_exists.mp hts
      simp [hcc]
  rw [hdef]

/-- A three-rule legend with two trailing value-less rules, every colour
resolvable. -/
def wit3Config : List LegendItem :=
  [ruleA,
   .mk (some "g") none (some [9, 9, 9]) none none false none,
   .mk (some "h") none (some [7, 7, 7]) none none false none]

/-- Legend wrapping `wit3Config`. -/
def wit3Legend : Legend :=
  { config := some wit3Config, chkBoxesState := none }

/-- Witness for the amended C3: the default of the compiled expression is
the colour of the last value-less rule, `rgb(7,7,7)`. -/
theorem colour_default_last_valueless_witness :
    generateColourExpression wit3Legend =
      JVal.arr (JVal.str "case" :: (Legend.GetListOfStyles wit3Config).flatMap stylePair ++
        [lastValuelessColour (Legend.GetListOfStyles wit3Config)]) :=
  colour_default_last_valueless wit3Legend wit3Config rfl (by decide)
    (by decide) (by decide)

/-! ## C8: rules lacking a colour -/

/-- A two-rule legend: a value-bearing red rule followed by a rule with a
label but no colour and no value. -/
def cex8Config : List LegendItem :=
  [ruleA, .mk (some "b") none none none none false none]

/-- Legend wrapping `cex8Config`. -/
def cex8Legend : Legend :=
  { config := some cex8Config, chkBoxesState := none }

/-- C8 counterexample: the colourless second rule is the default-supplying
entry, yet the compiled expression's default slot carries
`"rgb(255,0,0)"` — the colour of the *first* rule (the stale `styleColor`
variable) — rather than omitting a colour for it. -/
theorem colourless_rule_cex :
    generateColourExpression cex8Legend =
      JVal.arr [JVal.str "case", vA, JVal.str "rgb(255,0,0)", JVal.str "rgb(255,0,0)"] ∧
    ((Legend.GetListOfStyles cex8Config).getLast?.map fun s => s.color) = some none := by
  refine ⟨rfl, rfl⟩

/-- C8 amended: no error is raised for a flattened rule lacking a colour
and no case pair is ever emitted for it — every case pair comes from a
rule whose own colour resolves, painted with that rule's own colour
(`stylePair`).  However, such a rule can still act as the default-setter,
in which case the default slot receives the most recently computed colour
string of an earlier rule rather than no colour at all. -/
theorem colourless_rule_no_pair (legend : Legend) (cfg : List LegendItem)
    (hc : legend.config = some cfg)
    (hlen : 1 < (Legend.GetListOfStyles cfg).length) :
    (∀ s ∈ Legend.GetListOfStyles cfg, s.color = none → stylePair s = []) ∧
    generateColourExpression legend =
      JVal.arr (JVal.str "case" :: (Legend.GetListOfStyles cfg).flatMap stylePair ++
        [colourDefaultJVal (Legend.GetListOfStyles cfg)]) := by
  constructor
  · intro s _ hcol
    unfold stylePair rgbOfStyle
    rw [hcol]
    rcases hval : s.value with _ | v <;> simp
  · exact generateColourExpression_case legend cfg hc hlen

/-- Witness for the amended C8 at the `cex8Config` legend. -/
theorem colourless_rule_no_pair_witness :
    generateColourExpression cex8Legend =
      JVal.arr (JVal.str "case" :: (Legend.GetListOfStyles cex8Config).flatMap stylePair ++
        [colourDefaultJVal (Legend.GetListOfStyles cex8Config)]) :=
  (colourless_rule_no_pair cex8Legend cex8Config rfl (by decide)).2

/-! ## C4, C5, C9: per-rule opacity resolution and its state effects -/

/-- Overwriting the `opacity` field twice keeps only the last write. -/
theorem setOpacity_setOpacity (it : LegendItem) (a b : Option ℚ) :
    (it.setOpacity a).setOpacity b = it.setOpacity b := by
  cases it
  rfl

/-- The opacity list is indexed like the `chkBoxesState` array: entry `i`
of the result is `resolveEntry` applied to entry `i` of the state. -/
theorem generateLegendOpacityValues_getElem (legend : Legend) (storedOpacity : ℚ)
    (entries : List ChkEntry) (i : ℕ)
    (hcs : legend.chkBoxesState = some entries) :
    (generateLegendOpacityValues legend storedOpacity)[i]? =
      entries[i]?.map fun e => (resolveEntry e storedOpacity).1 := by
  unfold generateLegendOpacityValues generateLegendOpacityValuesFull
  rw [hcs]
  simp only [List.getElem?_map, Option.map_map]
  rfl

/-- C4: a `chkBoxesState` entry whose checkbox is unchecked resolves to
opacity `0`, whatever its item's fixed `opacity` field and whatever the
global stored opacity — in both the part_005 revision
(`generateLegendOpacityValues`) and the part_003 revision
(`generateLegendOpacityValues03`). -/
theorem unchecked_entry_opacity_zero (legend : Legend) (storedOpacity : ℚ)
    (entries : List ChkEntry) (i : ℕ) (e : ChkEntry)
    (hcs : legend.chkBoxesState = some entries)
    (hi : entries[i]? = some e)
    (hunchecked : e.checked = false) :
    (generateLegendOpacityValues legend storedOpacity)[i]? = some 0 ∧
    (generateLegendOpacityValues03 legend storedOpacity)[i]? = some 0 := by
  constructor
  · rw [generateLegendOpacityValues_getElem legend storedOpacity entries i hcs, hi]
    simp [resolveEntry, hunchecked]
  · unfold generateLegendOpacityValues03
    rw [hcs]
    simp only [List.getElem?_map, hi]
    simp [hunchecked]

/-- Witness for C4: an unchecked entry with a declared fixed opacity `1`
and stored global opacity `3/4` still resolves to `0` in both revisions. -/
theorem unchecked_entry_opacity_zero_witness :
    (generateLegendOpacityValues
      { config := none,
        chkBoxesState := some
          [⟨LegendItem.mk (some "x") none (some [1, 2, 3]) none (some 1) true none, false⟩] }
      (mkRat 3 4))[0]? = some 0 ∧
    (generateLegendOpacityValues03
      { config := none,
        chkBoxesState := some
          [⟨LegendItem.mk (some "x") none (some [1, 2, 3]) none (some 1) true none, false⟩] }
      (mkRat 3 4))[0]? = some 0 :=
  unchecked_entry_opacity_zero _ _ _ 0 _ rfl rfl rfl

/-- The legend of the C5 counterexample: one checked entry whose item
declares the fixed numeric opacity `0`. -/
def cex5Legend : Legend :=
  { config := none
    chkBoxesState := some
      [⟨LegendItem.mk (some "x") none (some [1, 2, 3]) none (some 0) false none, true⟩] }

/-- C5 counterexample: a checked rule with declared fixed opacity `0`
resolves to the stored global opacity `7/10`, not to its declared value
clamped (`clampOpacity 0 = 0`): the JS truthiness test
`chkBox.item.opacity && ...` rejects a declared `0`. -/
theorem declared_zero_opacity_ignored_cex :
    generateLegendOpacityValues cex5Legend (mkRat 7 10) = [mkRat 7 10] ∧
    clampOpacity 0 = 0 ∧
    (mkRat 7 10 : ℚ) ≠ 0 := by
  refine ⟨rfl, rfl, by decide⟩

/-- C5 amended: a checked rule with a declared *nonzero* numeric opacity
resolves to that value clamped to `[0,1]` (out-of-range values clamped,
not rejected); a declared opacity of exactly `0` is falsy in JS and is
ignored in favour of the stored global opacity. -/
theorem declared_opacity_clamped (legend : Legend) (storedOpacity : ℚ)
    (entries : List ChkEntry) (i : ℕ) (e : ChkEntry) (q : ℚ)
    (hcs : legend.chkBoxesState = some entries)
    (hi : entries[i]? = some e)
    (hchk : e.checked = true)
    (hop : e.item.opacity = some q) :
    (q ≠ 0 → (generateLegendOpacityValues legend storedOpacity)[i]? =
      some (clampOpacity q)) ∧
    (q = 0 → (generateLegendOpacityValues legend storedOpacity)[i]? =
      some storedOpacity) := by
  rw [generateLegendOpacityValues_getElem legend storedOpacity entries i hcs, hi]
  have hbase : resolveEntry e storedOpacity =
      (if q ≠ 0 then
        (if q > 1 then (1, { item := e.item.setOpacity (some 1), checked := e.checked })
         else if q < 0 then (0, { item := e.item.setOpacity (some 0), checked := e.checked })
         else (q, e))
       else (storedOpacity, e)) := by
    unfold resolveEntry
    rw [if_neg (by simp [hchk]), hop]
  constructor
  · intro hq
    show some ((resolveEntry e storedOpacity).1) = _
    rw [hbase, if_pos hq]
    unfold clampOpacity
    split_ifs <;> rfl
  · intro hq
    show some ((resolveEntry e storedOpacity).1) = _
    rw [hbase, if_neg (by simp [hq])]

/-- The item and legend of the C5 witness. -/
def wit5Item : LegendItem :=
  LegendItem.mk (some "y") none (some [4, 5, 6]) none (some (mkRat 3 2)) false none

/-- Legend for the C5 witness. -/
def wit5Legend : Legend :=
  { config := none, chkBoxesState := some [⟨wit5Item, true⟩] }

/-- Witness for the amended C5: a checked rule with declared opacity `3/2`
resolves to the clamped value `clampOpacity (3/2) = 1`. -/
theorem declared_opacity_clamped_witness :
    (generateLegendOpacityValues wit5Legend (mkRat 1 4))[0]? =
      some (clampOpacity (mkRat 3 2)) :=
  (declared_opacity_clamped wit5Legend (mkRat 1 4) [⟨wit5Item, true⟩] 0
    ⟨wit5Item, true⟩ (mkRat 3 2) rfl rfl rfl rfl).1 (by decide)

/-- Resolving an entry changes at most its item's `opacity` field. -/
theorem resolveEntry_eraseOp (e : ChkEntry) (storedOpacity : ℚ) :
    eraseOp (resolveEntry e storedOpacity).2 = eraseOp e := by
  unfold resolveEntry
  rcases hchk : e.checked with _ | _
  · simp [hchk]
  · rw [if_neg (by simp [hchk])]
    rcases hop : e.item.opacity with _ | q
    · rfl
    · by_cases hq : q = 0
      · simp [hq]
      · simp only [hq, if_pos (by simpa using hq)]
        split_ifs <;> simp [eraseOp, setOpacity_setOpacity, hchk]

/-- Resolving an entry whose declared opacity (if any) already lies in
`[0,1]` leaves the entry untouched. -/
theorem resolveEntry_inrange (e : ChkEntry) (storedOpacity : ℚ)
    (h : ∀ q : ℚ, e.item.opacity = some q → 0 ≤ q ∧ q ≤ 1) :
    (resolveEntry e storedOpacity).2 = e := by
  unfold resolveEntry
  rcases hchk : e.checked with _ | _
  · simp [hchk]
  · rw [if_neg (by simp [hchk])]
    rcases hop : e.item.opacity with _ | q
    · rfl
    · obtain ⟨h0, h1⟩ := h q hop
      by_cases hq : q = 0
      · simp [hq]
      · simp only [hq, if_pos (by simpa using hq)]
        split_ifs with hgt hlt
        · exact absurd h1 (by simpa using hgt)
        · exact absurd h0 (by simp; linarith)
        · rfl

/-- The item of the C9 counterexample: declared opacity `3/2`. -/
def cex9Item : LegendItem :=
  LegendItem.mk (some "x") none (some [1, 2, 3]) none (some (mkRat 3 2)) false none

/-- Legend wrapping `cex9Item` with a single checked entry. -/
def cex9Legend : Legend :=
  { config := none, chkBoxesState := some [⟨cex9Item, true⟩] }

/-- C9 counterexample: `generateLegendOpacityValues` *does* mutate its
input — after the call, the entry's `item.opacity` has been overwritten
with the clamped value `1`, no longer the declared `3/2`. -/
theorem opacity_state_mutation_cex :
    ((generateLegendOpacityValuesFull cex9Legend (mkRat 1 2)).2.map
      fun e => e.item.opacity) = [some 1] ∧
    ((cex9Legend.chkBoxesState.getD []).map fun e => e.item.opacity) =
      [some (mkRat 3 2)] ∧
    (some (1 : ℚ) ≠ some (mkRat 3 2)) := by
  refine ⟨by decide, rfl, by decide⟩

/-- C9 amended: `generateLegendOpacityValues` leaves every part of the
`chkBoxesState` pairs intact *except* the items' `opacity` fields, which
it clamps in place: erasing the opacity fields the state is unchanged,
and when every declared opacity already lies in `[0,1]` the state is
unchanged outright. -/
theorem opacity_values_mutation_frame (legend : Legend) (storedOpacity : ℚ)
    (entries : List ChkEntry)
    (hcs : legend.chkBoxesState = some entries) :
    ((generateLegendOpacityValuesFull legend storedOpacity).2.map eraseOp =
      entries.map eraseOp) ∧
    ((∀ e ∈ entries, ∀ q : ℚ, e.item.opacity = some q → 0 ≤ q ∧ q ≤ 1) →
      (generateLegendOpacityValuesFull legend storedOpacity).2 = entries) := by
  unfold generateLegendOpacityValuesFull
  rw [hcs]
  constructor
  · simp only [List.map_map]
    exact List.map_congr_left fun e _ => resolveEntry_eraseOp e storedOpacity
  · intro h
    simp only [List.map_map]
    have : entries.map ((fun p => p.2) ∘ fun e => resolveEntry e storedOpacity) =
        entries.map id :=
      List.map_congr_left fun e he => resolveEntry_inrange e storedOpacity (h e he)
    rw [this, List.map_id]

/-- Witness for the amended C9: on a checked entry with in-range declared
opacity `1/2`, the state after the call (with its opacity fields erased)
matches the input state. -/
theorem opacity_values_mutation_frame_witness :
    ((generateLegendOpacityValuesFull
      { config := none,
        chkBoxesState := some
          [⟨LegendItem.mk (some "z") none (some [2, 2, 2]) none (some (mkRat 1 2)) false none,
            true⟩] }
      (mkRat 1 3)).2.map eraseOp =
      [⟨LegendItem.mk (some "z") none (some [2, 2, 2]) none (some (mkRat 1 2)) false none,
        true⟩].map eraseOp) :=
  (opacity_values_mutation_frame _ (mkRat 1 3)
    [⟨LegendItem.mk (some "z") none (some [2, 2, 2]) none (some (mkRat 1 2)) false none,
      true⟩] rfl).1

/-! ## C6: shape parity of the two compiled expressions -/

/-- The opacity list has one value per `chkBoxesState` entry. -/
theorem generateLegendOpacityValues_length (legend : Legend) (storedOpacity : ℚ)
    (entries : List ChkEntry)
    (hcs : legend.chkBoxesState = some entries) :
    (generateLegendOpacityValues legend storedOpacity).length = entries.length := by
  unfold generateLegendOpacityValues generateLegendOpacityValuesFull
  rw [hcs]
  simp

/-- A one-rule legend with a colour but no label: the legend UI creates no
checkbox for it, so its `chkBoxesState` is empty. -/
def cex6Config : List LegendItem :=
  [.mk none none (some [1, 2, 3]) none none false none]

/-- Legend wrapping `cex6Config` with an empty checkbox state. -/
def cex6Legend : Legend :=
  { config := some cex6Config, chkBoxesState := some [] }

/-- C6 counterexample: on a legend whose checkbox state has fewer entries
than its flattened style list, the colour expression is a scalar while the
opacity expression is `undefined` — the shapes differ. -/
theorem expression_shapes_mismatch_cex :
    (generateColourExpression cex6Legend).shape = JShape.scalar ∧
    (generateOpacityExpression cex6Legend (mkRat 1 2)).shape = JShape.undefshape ∧
    JShape.scalar ≠ JShape.undefshape := by
  refine ⟨rfl, rfl, by decide⟩

/-- C6 amended: the opacity expression has the same shape as the colour
expression provided the checkbox state has exactly one entry per flattened
style and, in the single-rule case, that rule's colour resolves; with a
mismatched checkbox state (or an unresolvable single colour) one side can
be `undefined` while the other is not. -/
theorem expression_shapes_match (legend : Legend) (opacity : ℚ)
    (cfg : List LegendItem) (entries : List ChkEntry)
    (hc : legend.config = some cfg)
    (hcs : legend.chkBoxesState = some entries)
    (hlen : entries.length = (Legend.GetListOfStyles cfg).length)
    (hres : ∀ s, Legend.GetListOfStyles cfg = [s] → (rgbOfStyle s).isSome) :
    (generateOpacityExpression legend opacity).shape =
      (generateColourExpression legend).shape := by
  have hops : (generateLegendOpacityValues legend opacity).length = entries.length :=
    generateLegendOpacityValues_length legend opacity entries hcs
  unfold generateOpacityExpression generateColourExpression
  rw [hc]
  rcases hst : Legend.GetListOfStyles cfg with _ | ⟨s, _ | ⟨s2, rest⟩⟩
  · rw [hst] at hlen
    simp only [List.length_nil] at hlen
    simp [hst, hops, hlen]
  · rw [hst] at hlen
    simp only [List.length_singleton] at hlen
    have hs : (rgbOfStyle s).isSome := hres s hst
    obtain ⟨str, hstr⟩ := Option.isSome_iff_exists.mp hs
    have hcol : ∃ c, s.color = some c ∧ colourListToRGBString c = some str := by
      unfold rgbOfStyle at hstr
      rcases hc2 : s.color with _ | c
      · rw [hc2] at hstr; simp at hstr
      · rw [hc2] at hstr; simp at hstr; exact ⟨c, rfl, hstr⟩
    obtain ⟨c, hc2, hcs2⟩ := hcol
    have hone : (generateLegendOpacityValues legend opacity).length = 1 := by omega
    obtain ⟨q, hq⟩ : ∃ q, (generateLegendOpacityValues legend opacity).head? = some q := by
      rcases hh : generateLegendOpacityValues legend opacity with _ | ⟨q, qs⟩
      · rw [hh] at hone; simp at hone
      · exact ⟨q, rfl⟩
    simp [hst, hone, hq, hc2, hcs2, JVal.shape]
  · rw [hst] at hlen
    simp only [List.length_cons] at hlen
    have hgt : 1 < (generateLegendOpacityValues legend opacity).length := by omega
    simp [hst, hgt, JVal.shape]

/-- One-rule legend with a labelled, coloured rule and a matching
single-entry checkbox state. -/
def wit6Legend : Legend :=
  { config := some [ruleDefault], chkBoxesState := some [⟨ruleDefault, true⟩] }

/-- Witness for the amended C6: on a matched one-rule legend both
expressions are scalars. -/
theorem expression_shapes_match_witness :
    (generateOpacityExpression wit6Legend (mkRat 2 5)).shape =
      (generateColourExpression wit6Legend).shape :=
  expression_shapes_match wit6Legend (mkRat 2 5) [ruleDefault] [⟨ruleDefault, true⟩]
    rfl rfl rfl (by
      intro s h
      have h2 : [Legend.GetStylingFromLegendItem ruleDefault] = [s] := h
      injection h2 with h3 _
      rw [← h3]
      decide)

/-! ## C7: rules with neither label nor group -/

/-- A rule with neither `label` nor `group` (but with a colour). -/
def cex7Item : LegendItem :=
  .mk none none (some [1, 2, 3]) none none false none

/-- C7 counterexample: `GetListOfStyles` does *not* skip a rule with
neither `label` nor `group` — the flattened list contains its style entry
(the skip is performed by the legend UI's `AddLegendItem`, not by the
flattening used for compilation). -/
theorem unlabeled_rule_not_skipped_cex :
    cex7Item.label = none ∧
    cex7Item.group = none ∧
    Legend.GetListOfStyles [cex7Item] = [{ color := some [1, 2, 3], value := none }] ∧
    (Legend.GetListOfStyles [cex7Item]).length ≠ 0 := by
  refine ⟨rfl, rfl, rfl, by decide⟩

/-- C7 amended: a rule with neither `label` nor `group` is *not* skipped
by `GetListOfStyles`: it contributes exactly one entry (its extracted
styling) to the flattened list, in input order. -/
theorem unlabeled_rule_contributes (pre post : List LegendItem) (item : LegendItem)
    (_hlabel : item.label = none) (hgroup : item.group = none) :
    Legend.GetListOfStyles (pre ++ item :: post) =
      Legend.GetListOfStyles pre ++
        Legend.GetStylingFromLegendItem item :: Legend.GetListOfStyles post := by
  unfold Legend.GetListOfStyles
  rw [List.flatMap_append, List.flatMap_cons, hgroup]
  rfl

/-- Witness for the amended C7 at a singleton legend. -/
theorem unlabeled_rule_contributes_witness :
    Legend.GetListOfStyles ([] ++ cex7Item :: []) =
      Legend.GetListOfStyles [] ++
        Legend.GetStylingFromLegendItem cex7Item :: Legend.GetListOfStyles [] :=
  unlabeled_rule_contributes [] [] cex7Item rfl rfl

/-! ## C10: symbol opacity binarization -/

/-- C10: `generateSymbolOpacityExpression` maps a scalar number to `1`
when positive and `0` otherwise; a `case`-shaped list is mapped
elementwise, numbers binarized and every non-numeric element passed
through unchanged, preserving the list's length. -/
theorem symbol_binarization :
    (∀ q : ℚ, generateSymbolOpacityExpression (JVal.num q) =
      (if q > 0 then JVal.num 1 else JVal.num 0)) ∧
    (∀ l : List JVal, isCaseShaped l →
      generateSymbolOpacityExpression (JVal.arr l) = JVal.arr (l.map binarizeElem) ∧
      (l.map binarizeElem).length = l.length ∧
      (∀ v ∈ l,
        (∀ q : ℚ, v = JVal.num q →
          binarizeElem v = (if q > 0 then JVal.num 1 else JVal.num 0)) ∧
        ((∀ q : ℚ, v ≠ JVal.num q) → binarizeElem v = v))) := by
  constructor
  · intro q
    rfl
  · intro l hshape
    obtain ⟨hhead, hlen⟩ := hshape
    have hmapeq : (fun e =>
        match e with
        | JVal.num q => if q > 0 then JVal.num 1 else JVal.num 0
        | other => other) = binarizeElem := by
      funext v
      cases v <;> rfl
    refine ⟨?_, List.length_map l binarizeElem, ?_⟩
    · show (if l.length > 1 then
          JVal.arr (l.map fun e =>
            match e with
            | JVal.num q => if q > 0 then JVal.num 1 else JVal.num 0
            | other => other)
        else JVal.undef) = JVal.arr (l.map binarizeElem)
      rw [if_pos (by omega), hmapeq]
    · intro v _
      constructor
      · intro q hq
        rw [hq]
        rfl
      · intro hnotnum
        cases v with
        | num q => exact absurd rfl (hnotnum q)
        | str s => rfl
        | arr l2 => rfl
        | undef => rfl

/-- A concrete case-shaped opacity expression for the C10 witness. -/
def wit10List : List JVal :=
  [JVal.str "case", vA, JVal.num (mkRat 1 2), JVal.num 0]

/-- Witness for C10 on a concrete case-shaped list. -/
theorem symbol_binarization_witness :
    generateSymbolOpacityExpression (JVal.arr wit10List) =
      JVal.arr (wit10List.map binarizeElem) :=
  (symbol_binarization.2 wit10List ⟨rfl, by decide⟩).1
